import Mathlib

/-!
# Verification of the `creg2json` header recognizer

Shallow embedding of `scripts/creg2json.py`: a line-by-line state machine that
extracts register descriptions from a C-header idiom and emits one document per
completed struct.  Lines are modelled without their trailing newline (the
newline is whitespace for every pattern involved and no pattern can consume
it mid-line, so this is behavior-preserving).  Python's `re` matching for the
six concrete patterns of the script is embedded as a backtracking matcher
with PCRE priority order (leftmost start position, greedy quantifiers trying
the longest repetition first), which on these patterns agrees with `re.match`
and `re.search`.
-/

set_option maxRecDepth 4000

namespace Creg2Json

/-- Whitespace as recognized by Python's `str.strip()` and `\s` on ASCII
input: space, tab, newline, carriage return, vertical tab, form feed. -/
def isPySpace (c : Char) : Bool :=
  c = ' ' || c = '\t' || c = '\n' || c = '\r' || c = '\x0b' || c = '\x0c'

/-- `str.startswith`, on explicit character lists. -/
def pyStartsWith : List Char → List Char → Bool
  | _, [] => true
  | [], _ :: _ => false
  | c :: s, p :: ps => c = p && pyStartsWith s ps

/-- `str.strip()` with no argument: drop leading and trailing whitespace. -/
def pyStrip (s : List Char) : List Char :=
  ((s.dropWhile isPySpace).reverse.dropWhile isPySpace).reverse

/-- Character classes appearing in the script's regular expressions. -/
inductive CC where
  | lit (c : Char)
  | space
  | nonspace
  | digit
  | hexdigit
  | dot
deriving DecidableEq

/-- Membership test of a character class.  `dot` is `.` in default mode:
any character except newline. -/
def CC.test : CC → Char → Bool
  | .lit c', c => c = c'
  | .space, c => isPySpace c
  | .nonspace, c => !isPySpace c
  | .digit, c => '0' ≤ c && c ≤ '9'
  | .hexdigit, c => ('0' ≤ c && c ≤ '9') || ('a' ≤ c && c ≤ 'f') || ('A' ≤ c && c ≤ 'F')
  | .dot, c => c ≠ '\n'

/-- One item of a regular expression: a single-class atom, a greedy
quantifier over a class, or a capturing group.  This grammar covers all six
patterns used by the script. -/
inductive RItem where
  | ch (cc : CC)
  | star (cc : CC)
  | plus (cc : CC)
  | opt (c : Char)
  | grp (sub : List RItem)

/-- Length of the maximal prefix of `s` whose characters are all in `cc`. -/
def takeClass (cc : CC) : List Char → Nat
  | [] => 0
  | c :: s => if cc.test c then takeClass cc s + 1 else 0

/-- Remainders after consuming `k, k-1, ..., 0` characters of `s`
(longest consumption first): the greedy preference order of `*`. -/
def restsFrom (s : List Char) : Nat → List (List Char)
  | 0 => [s]
  | k + 1 => s.drop (k + 1) :: restsFrom s k

/-- Remainders after consuming `k, k-1, ..., 1` characters of `s`:
the greedy preference order of `+`. -/
def restsFrom1 (s : List Char) : Nat → List (List Char)
  | 0 => []
  | k + 1 => s.drop (k + 1) :: restsFrom1 s k

mutual

/-- All ways one regex item can match a prefix of `s`, as
(captured groups, remaining suffix) pairs, in backtracking priority order
(greedy quantifiers longest first).  The head of the list is the match
Python's engine commits to. -/
def matchR : RItem → List Char → List (List (List Char) × List Char)
  | .ch cc, c :: t => if cc.test c then [([], t)] else []
  | .ch _, [] => []
  | .star cc, s => (restsFrom s (takeClass cc s)).map (fun r => ([], r))
  | .plus cc, s => (restsFrom1 s (takeClass cc s)).map (fun r => ([], r))
  | .opt c, c' :: t => if c = c' then [([], t), ([], c' :: t)] else [([], c' :: t)]
  | .opt _, [] => [([], [])]
  | .grp sub, s =>
    (matchRs sub s).map (fun pr => ((s.take (s.length - pr.2.length)) :: pr.1, pr.2))

/-- All ways a sequence of regex items can match a prefix of `s`, in
backtracking priority order. -/
def matchRs : List RItem → List Char → List (List (List Char) × List Char)
  | [], s => [([], s)]
  | i :: is, s =>
    (matchR i s).flatMap (fun pr => (matchRs is pr.2).map (fun qr => (pr.1 ++ qr.1, qr.2)))

end

/-- `re.match(pat, s)`: anchored at the start, returning the list of
captured groups of the committed match. -/
def reMatch (pats : List RItem) (s : List Char) : Option (List (List Char)) :=
  (matchRs pats s).head?.map (·.1)

/-- Whether `re.match(pat, s)` succeeds. -/
def reTest (pats : List RItem) (s : List Char) : Bool :=
  !(matchRs pats s).isEmpty

/-- `re.search(pat, s)`: try each start position left to right, committing
to the first position where an (anchored, greedy) match exists. -/
def reSearch (pats : List RItem) : List Char → Option (List (List Char))
  | [] => (matchRs pats []).head?.map (·.1)
  | c :: t =>
    match (matchRs pats (c :: t)).head? with
    | some pr => some pr.1
    | none => reSearch pats t

/-- Literal text as a regex item sequence. -/
def lits (s : String) : List RItem := s.data.map (fun c => .ch (.lit c))

/-- `"struct (\S+) {"` (used with `re.match` in `_read_struct_name`). -/
def structNameRe : List RItem := lits "struct " ++ [.grp [.plus .nonspace]] ++ lits " \x7b"

/-- `"^\s*/\*"` (used with `re.match` in the `struct` state). -/
def commentOpenRe : List RItem := [.star .space] ++ lits "/*"

/-- `"\* (0x[0-9a-fA-F]+) :? (.*) \*"` (used with `re.search` in
`_read_reg_comment`). -/
def regCommentRe : List RItem :=
  lits "* " ++ [.grp (lits "0x" ++ [.plus .hexdigit]), .ch (.lit ' '), .opt ':',
    .ch (.lit ' '), .grp [.star .dot]] ++ lits " *"

/-- `"\s+union \{"` (used with `re.match` in the `post_reg_comment` state). -/
def unionRe : List RItem := [.plus .space] ++ lits "union \x7b"

/-- `"\s+struct {"` (used with `re.match` in the `post_reg_union_def` state). -/
def structDefRe : List RItem := [.plus .space] ++ lits "struct \x7b"

/-- `"(uint\d+_t)\s+(.+)\s*:\s*(\d+)\s*;\s*/\*(.+)\*"` (used with `re.match`
on the stripped line in `_parse_reg_field`). -/
def fieldRe : List RItem :=
  [.grp (lits "uint" ++ [.plus .digit] ++ lits "_t"), .plus .space, .grp [.plus .dot],
    .star .space, .ch (.lit ':'), .star .space, .grp [.plus .digit], .star .space,
    .ch (.lit ';'), .star .space] ++ lits "/*" ++ [.grp [.plus .dot], .ch (.lit '*')]

/-- `"} (.+);"` (used with `re.search` in the `post_reg_struct` state). -/
def regNameRe : List RItem := lits "\x7d " ++ [.grp [.plus .dot], .ch (.lit ';')]

/-- One bit-field of a register (class `Field`); `type`, `comment` and
`bitsize` are absent until parsed, in constructor-attribute order. -/
structure Field where
  name : String
  type : Option String
  comment : Option String
  bitsize : Option String
deriving DecidableEq

/-- One register of a struct (class `Register`): `name` initially holds the
comment's free text, `offset` the verbatim hex literal text, `comment` is
absent until the closing `} <identifier>;` rename. -/
structure Register where
  name : String
  offset : String
  line : Nat
  comment : Option String
  fields : List Field
deriving DecidableEq

/-- One register block (class `Struct`). -/
structure Struct where
  name : String
  line : Nat
  registers : List Register
deriving DecidableEq

/-- `_read_struct_name` without the final `.group(1)` dereference: `none`
models a failed match (the script would then raise `AttributeError`). -/
def readStructName (line : String) : Option String :=
  match reMatch structNameRe line.data with
  | some (g :: _) => some (String.mk g)
  | _ => none

/-- The `re.match("^\s*/\*", line)` test of the `struct` state. -/
def commentOpen (line : String) : Bool := reTest commentOpenRe line.data

/-- `_read_reg_comment`: offset and free text of a register comment line, or
`none` (the script then returns `None`, and unpacking it raises `TypeError`). -/
def readRegComment (line : String) : Option (String × String) :=
  match reSearch regCommentRe line.data with
  | some (o :: c :: _) => some (String.mk o, String.mk c)
  | _ => none

/-- `_parse_reg_field`: the line is stripped, matched against `fieldRe`, and
all four captures are stripped into a fully populated `Field`. -/
def parseRegField (line : String) : Option Field :=
  match reMatch fieldRe (pyStrip line.data) with
  | some (g1 :: g2 :: g3 :: g4 :: _) =>
    some { name := String.mk (pyStrip g2), type := some (String.mk (pyStrip g1)),
           comment := some (String.mk (pyStrip g4)), bitsize := some (String.mk (pyStrip g3)) }
  | _ => none

/-- The `re.search("} (.+);", line)` capture of the `post_reg_struct` state. -/
def readRegName (line : String) : Option String :=
  match reSearch regNameRe line.data with
  | some (g :: _) => some (String.mk g)
  | _ => none

/-- The parser states (the string values of `self.state`). -/
inductive PState where
  | init
  | struct
  | post_reg_comment
  | post_reg_union_def
  | post_reg_struct_def
  | post_reg_struct
deriving DecidableEq

/-- The mutable fields of class `Parser`.  `self.register` always aliases
the most recently appended register of the open struct whenever it is read
(it is only read in the `post_reg_*` states, all of which are entered after
the `struct`-state comment branch appended a fresh register and none of
which replace the open struct), so it is modelled as the last element of
`struct.registers` rather than as a second copy. -/
structure Machine where
  state : PState
  struct : Option Struct
deriving DecidableEq

/-- Severity levels of the logger. -/
inductive Level where
  | debug
  | warning
  | error
deriving DecidableEq

/-- The diagnostics the script can emit, one constructor per logging call
site, each carrying the data interpolated into the message. -/
inductive Diag where
  | readingFile
  | unexpectedStruct (ln : Nat)
  | foundStruct (name : String) (ln : Nat)
  | foundComment (ln : Nat)
  | registerDebug (r : Register)
  | finishedStruct (s : Option Struct)
  | noUnion (ln : Nat)
  | foundUnion
  | expectedStruct (ln : Nat)
  | foundStructDef
  | badField (ln : Nat)
  | unexpectedFieldLine (ln : Nat)
  | usingRegName (name : String)
deriving DecidableEq

/-- Severity of each diagnostic. -/
def Diag.level : Diag → Level
  | .readingFile => .debug
  | .unexpectedStruct _ => .error
  | .foundStruct _ _ => .debug
  | .foundComment _ => .debug
  | .registerDebug _ => .debug
  | .finishedStruct _ => .debug
  | .noUnion _ => .warning
  | .foundUnion => .debug
  | .expectedStruct _ => .warning
  | .foundStructDef => .debug
  | .badField _ => .warning
  | .unexpectedFieldLine _ => .warning
  | .usingRegName _ => .debug

/-- The 1-based line number a diagnostic refers to (0 when it carries none). -/
def Diag.lineOf : Diag → Nat
  | .unexpectedStruct ln => ln
  | .foundStruct _ ln => ln
  | .foundComment ln => ln
  | .noUnion ln => ln
  | .expectedStruct ln => ln
  | .badField ln => ln
  | .unexpectedFieldLine ln => ln
  | _ => 0

/-- Whether a diagnostic is the (dead) `Entered unexpected struct` error. -/
def Diag.isUnexpectedStruct : Diag → Bool
  | .unexpectedStruct _ => true
  | _ => false

/-- Accumulated observable state of a run: the machine, the structs handed
to `jsonpickle.encode`+`print` in emission order (`none` would be Python's
`None`), the log stream, and the lines printed to stderr. -/
structure RunAcc where
  machine : Machine
  out : List (Option Struct)
  diags : List Diag
  err : List String
deriving DecidableEq

/-- How the processing of a line (or a whole run) ends: normally, via
`sys.exit`, or via an uncaught exception. -/
inductive Exc where
  | typeError
  | attributeError
deriving DecidableEq

/-- Result of a step or of a run, carrying the accumulated state at that
point. -/
inductive StepRes where
  | ok (acc : RunAcc)
  | exit (code : Nat) (acc : RunAcc)
  | exc (e : Exc) (acc : RunAcc)
deriving DecidableEq

/-- Append a diagnostic. -/
def pushDiag (acc : RunAcc) (d : Diag) : RunAcc := { acc with diags := acc.diags ++ [d] }

/-- Append a stderr line. -/
def pushErr (acc : RunAcc) (s : String) : RunAcc := { acc with err := acc.err ++ [s] }

/-- Apply `f` to the last appended register of the open struct (the object
`self.register` aliases); `none` when there is no such register, in which
case the script would dereference `None`. -/
def modifyLast (o : Option Struct) (f : Register → Register) : Option Struct :=
  match o with
  | some st =>
    match st.registers.getLast? with
    | some r => some { st with registers := st.registers.dropLast ++ [f r] }
    | none => none
  | none => none

/-- The `init` state: a line starting with `struct` opens a new struct
(logging the dead `unexpected struct` error first if one were open);
`_read_struct_name` failing to match raises `AttributeError`. -/
def stepInit (acc : RunAcc) (line : String) (ln : Nat) : StepRes :=
  if pyStartsWith line.data "struct".data then
    let acc1 := if acc.machine.struct.isSome then pushDiag acc (.unexpectedStruct ln) else acc
    match readStructName line with
    | none => .exc .attributeError acc1
    | some nm =>
      .ok { pushDiag acc1 (.foundStruct nm ln) with machine := ⟨.struct, some ⟨nm, ln, []⟩⟩ }
  else .ok acc

/-- The `struct` state: a block-comment opener creates and appends a
register (a failed offset extraction raises `TypeError` on unpacking); a
trimmed line starting with `};` emits the struct; anything else is ignored. -/
def stepStruct (acc : RunAcc) (line : String) (ln : Nat) : StepRes :=
  if commentOpen line then
    let acc1 := pushDiag acc (.foundComment ln)
    match readRegComment line with
    | none => .exc .typeError acc1
    | some (offset, comment) =>
      let r : Register := ⟨comment, offset, ln, none, []⟩
      let acc2 := pushDiag acc1 (.registerDebug r)
      match acc.machine.struct with
      | some st =>
        .ok { acc2 with machine :=
          ⟨.post_reg_comment, some { st with registers := st.registers ++ [r] }⟩ }
      | none => .exc .attributeError acc2
  else if pyStartsWith (pyStrip line.data) "\x7d;".data then
    let acc1 := pushDiag acc (.finishedStruct acc.machine.struct)
    .ok { acc1 with out := acc1.out ++ [acc.machine.struct], machine := ⟨.init, none⟩ }
  else .ok acc

/-- The `post_reg_comment` state: expects the anonymous union opener, else
warns and resynchronizes to the `struct` state. -/
def stepPostRegComment (acc : RunAcc) (line : String) (ln : Nat) : StepRes :=
  if reTest unionRe line.data then
    .ok { pushDiag acc .foundUnion with machine := { acc.machine with state := .post_reg_union_def } }
  else
    .ok { pushDiag acc (.noUnion ln) with machine := { acc.machine with state := .struct } }

/-- The `post_reg_union_def` state: expects the anonymous struct opener,
else warns and stays. -/
def stepPostRegUnionDef (acc : RunAcc) (line : String) (ln : Nat) : StepRes :=
  if reTest structDefRe line.data then
    .ok { pushDiag acc .foundStructDef with
      machine := { acc.machine with state := .post_reg_struct_def } }
  else
    .ok (pushDiag acc (.expectedStruct ln))

/-- The `post_reg_struct_def` state: a trimmed line starting with `uint` is
parsed as a field (appended on success; on failure a warning plus a stderr
print of the stripped line, then `sys.exit(1)`); a trimmed line starting
with `}` leaves the field block; anything else prints to stderr and warns. -/
def stepPostRegStructDef (acc : RunAcc) (line : String) (ln : Nat) : StepRes :=
  let ls := pyStrip line.data
  if pyStartsWith ls "uint".data then
    match parseRegField line with
    | some f =>
      match modifyLast acc.machine.struct (fun r => { r with fields := r.fields ++ [f] }) with
      | some st => .ok { acc with machine := { acc.machine with struct := some st } }
      | none => .exc .attributeError acc
    | none => .exit 1 (pushErr (pushDiag acc (.badField ln)) (String.mk ls))
  else if pyStartsWith ls "\x7d".data then
    .ok { acc with machine := { acc.machine with state := .post_reg_struct } }
  else
    .ok (pushDiag (pushErr acc (String.mk ls)) (.unexpectedFieldLine ln))

/-- The `post_reg_struct` state: a line containing `} <identifier>;` renames
the current register (descriptive text moves into `comment`, `name` becomes
the identifier) and returns to the `struct` state; otherwise nothing. -/
def stepPostRegStruct (acc : RunAcc) (line : String) (_ln : Nat) : StepRes :=
  match readRegName line with
  | some nm =>
    match modifyLast acc.machine.struct (fun r => { r with comment := some r.name, name := nm }) with
    | some st =>
      .ok { pushDiag acc (.usingRegName nm) with machine := ⟨.struct, some st⟩ }
    | none => .exc .attributeError acc
  | none => .ok acc

/-- Dispatch of one iteration of the `for line in fd` loop. -/
def stepLine (acc : RunAcc) (line : String) (ln : Nat) : StepRes :=
  match acc.machine.state with
  | .init => stepInit acc line ln
  | .struct => stepStruct acc line ln
  | .post_reg_comment => stepPostRegComment acc line ln
  | .post_reg_union_def => stepPostRegUnionDef acc line ln
  | .post_reg_struct_def => stepPostRegStructDef acc line ln
  | .post_reg_struct => stepPostRegStruct acc line ln

/-- Run the loop over the remaining lines, `n` lines having been processed
already; `sys.exit` and exceptions abort the loop. -/
def runLines : RunAcc → List String → Nat → StepRes
  | acc, [], _ => .ok acc
  | acc, l :: ls, n =>
    match stepLine acc l (n + 1) with
    | .ok acc' => runLines acc' ls (n + 1)
    | r => r

/-- State at the top of `Parser.load`: initial parser state, the
`Reading file` debug line already logged. -/
def initAcc : RunAcc := ⟨⟨.init, none⟩, [], [.readingFile], []⟩

/-- `Parser.load` over a list of input lines. -/
def load (lines : List String) : StepRes := runLines initAcc lines 0

/-- The accumulated state carried by any result. -/
def accOf : StepRes → RunAcc
  | .ok acc => acc
  | .exit _ acc => acc
  | .exc _ acc => acc

/-- The emitted documents of a result. -/
def outsOf (r : StepRes) : List (Option Struct) := (accOf r).out

/-- The diagnostics of a result. -/
def diagsOf (r : StepRes) : List Diag := (accOf r).diags

/-- How a result ended, with the accumulated state erased. -/
inductive RKind where
  | ok
  | exit (code : Nat)
  | exc (e : Exc)
deriving DecidableEq

/-- Project a result to its kind. -/
def resKind : StepRes → RKind
  | .ok _ => .ok
  | .exit c _ => .exit c
  | .exc e _ => .exc e

/-- JSON documents, modelling `jsonpickle.encode(..., unpicklable=False)`:
attribute dictionaries in attribute insertion order, strings verbatim,
Python `None` as null. -/
inductive Json where
  | str (s : String)
  | num (n : Nat)
  | null
  | arr (xs : List Json)
  | obj (kvs : List (String × Json))

/-- Serialize an optional string attribute. -/
def encodeOptStr : Option String → Json
  | none => .null
  | some s => .str s

/-- Serialized form of a `Field` (attribute order of `Field.__init__`). -/
def encodeField (f : Field) : Json :=
  .obj [("name", .str f.name), ("type", encodeOptStr f.type),
        ("comment", encodeOptStr f.comment), ("bitsize", encodeOptStr f.bitsize)]

/-- Serialized form of a `Register` (attribute order of `Register.__init__`). -/
def encodeRegister (r : Register) : Json :=
  .obj [("name", .str r.name), ("offset", .str r.offset), ("line", .num r.line),
        ("comment", encodeOptStr r.comment), ("fields", .arr (r.fields.map encodeField))]

/-- Serialized form of a `Struct` (attribute order of `Struct.__init__`). -/
def encodeStruct (st : Struct) : Json :=
  .obj [("name", .str st.name), ("line", .num st.line),
        ("registers", .arr (st.registers.map encodeRegister))]

/-- Re-read one key of a serialized object. -/
def getField (j : Json) (k : String) : Option Json :=
  match j with
  | .obj kvs => kvs.lookup k
  | _ => none

/-- Re-read the register array of a serialized struct document. -/
def jsonRegisters (j : Json) : List Json :=
  match getField j "registers" with
  | some (.arr rs) => rs
  | _ => []

/-- Re-read each register's serialized `offset` value from a document. -/
def regOffsetsJson (j : Json) : List (Option Json) :=
  (jsonRegisters j).map (fun r => getField r "offset")

/-- Re-read the field objects of all registers of a document. -/
def jsonFields (j : Json) : List Json :=
  (jsonRegisters j).flatMap (fun r =>
    match getField r "fields" with
    | some (.arr fs) => fs
    | _ => [])

/-- Re-read each field's serialized `bitsize` value from a document. -/
def fieldBitsizesJson (j : Json) : List (Option Json) :=
  (jsonFields j).map (fun f => getField f "bitsize")

/-- The nine-line example input of spec §8, verbatim. -/
def specExample : List String :=
  ["struct foo_reg \x7b",
   "    /* 0x100 : control register */",
   "    union \x7b",
   "        struct \x7b",
   "            uint32_t enable : 1; /*enable bit*/",
   "            uint32_t mode : 3; /*mode select*/",
   "        \x7d ctrl;",
   "    \x7d;",
   "\x7d;"]

/-- The §8 example adjusted to the grammar the code actually recognizes:
the inner anonymous struct closes with `};` and the register identifier
sits on the union-closing `} ctrl;` line. -/
def specExampleAmended : List String :=
  ["struct foo_reg \x7b",
   "    /* 0x100 : control register */",
   "    union \x7b",
   "        struct \x7b",
   "            uint32_t enable : 1; /*enable bit*/",
   "            uint32_t mode : 3; /*mode select*/",
   "        \x7d;",
   "    \x7d ctrl;",
   "\x7d;"]

/-- The `ctrl` register of the amended example, as emitted. -/
def ctrlRegister : Register :=
  ⟨"ctrl", "0x100", 2, some "control register",
    [⟨"enable", some "uint32_t", some "enable bit", some "1"⟩,
     ⟨"mode", some "uint32_t", some "mode select", some "3"⟩]⟩

/-- Input with a second struct-opening line before the first struct closes. -/
def secondStructInput : List String := ["struct a \x7b", "struct b \x7b", "\x7d;"]

/-- Input whose struct contains a block comment without an offset. -/
def plainCommentInput : List String := ["struct a \x7b", " /* hello */"]

/-- Input whose register comment has two spaces after the colon. -/
def extraSpaceInput : List String := ["struct a \x7b", "/* 0x1 :  x */"]

/-- Input whose register comment is not followed by the union opener. -/
def abandonedRegInput : List String := ["struct a \x7b", "/* 0x0 : d */", "nope", "\x7d;"]

/-- The abandoned register of `abandonedRegInput`, as emitted. -/
def abandonedStruct : Struct := ⟨"a", 1, [⟨"d", "0x0", 2, none, []⟩]⟩

/-- Prefix reaching the `post_reg_struct_def` state (witness input). -/
def fieldBlockPrefix : List String :=
  ["struct a \x7b", "/* 0x0 : d */", " union \x7b", "  struct \x7b"]

/-- Prefix reaching the `post_reg_struct` state (witness input). -/
def regClosePrefix : List String :=
  ["struct a \x7b", "/* 0x0 : d */", " union \x7b", "  struct \x7b", " \x7d;"]

/-- Machine invariant of every reachable parser state: in `init` no struct
is open; in `struct` one is; in the four `post_reg_*` states one is open,
it has at least one register, and the last (current) register's `comment`
is still absent. -/
def invB (m : Machine) : Bool :=
  match m.state, m.struct with
  | .init, o => o.isNone
  | .struct, o => o.isSome
  | _, some st =>
    match st.registers.getLast? with
    | some r => r.comment.isNone
    | none => false
  | _, none => false

/-- Provenance of a register in a run over `lines`: its recorded source
line is an input line from which the offset extraction captured exactly its
stored `offset` text and a description that its `name` (before the rename)
or its `comment` (after the rename) holds verbatim. -/
def RegProv (lines : List String) (r : Register) : Prop :=
  ∃ l desc, lines[r.line - 1]? = some l ∧ readRegComment l = some (r.offset, desc) ∧
    ((r.comment = none ∧ r.name = desc) ∨ r.comment = some desc)

/-- Provenance of a field: it is exactly the parse of some input line. -/
def FieldProv (lines : List String) (f : Field) : Prop :=
  ∃ l, l ∈ lines ∧ parseRegField l = some f

/-- Provenance of a whole struct. -/
def StructProv (lines : List String) (st : Struct) : Prop :=
  ∀ r ∈ st.registers, RegProv lines r ∧ ∀ f ∈ r.fields, FieldProv lines f

/-- Global invariant after processing the first `n` lines of `lines`:
the machine invariant holds, every emitted struct and the open struct have
full provenance and source lines within the processed range, every emitted
struct began strictly before the currently open one, every diagnostic
refers to a processed line, and the dead `unexpected struct` error was
never logged. -/
def GInv (lines : List String) (n : Nat) (acc : RunAcc) : Prop :=
  invB acc.machine = true ∧
  (∀ st : Struct, some st ∈ acc.out → StructProv lines st ∧ st.line ≤ n) ∧
  (∀ st : Struct, acc.machine.struct = some st →
    StructProv lines st ∧ st.line ≤ n ∧ ∀ t : Struct, some t ∈ acc.out → t.line < st.line) ∧
  (∀ d ∈ acc.diags, d.lineOf ≤ n) ∧
  acc.diags.countP (fun d => d.isUnexpectedStruct) = 0

theorem runLines_append (xs ys : List String) (acc : RunAcc) (n : Nat) :
    runLines acc (xs ++ ys) n =
      match runLines acc xs n with
      | .ok a => runLines a ys (n + xs.length)
      | r => r := by
  induction xs generalizing acc n with
  | nil => simp [runLines]
  | cons x xs ih =>
    simp only [List.cons_append, runLines, List.length_cons]
    cases h : stepLine acc x (n + 1) with
    | ok acc' =>
      show runLines acc' (xs ++ ys) (n + 1) =
        match runLines acc' xs (n + 1) with
        | .ok a => runLines a ys (n + (xs.length + 1))
        | r => r
      rw [ih acc' (n + 1)]
      have harith : n + 1 + xs.length = n + (xs.length + 1) := by omega
      rw [harith]
    | exit c a => rfl
    | exc e a => rfl

theorem out_extend_step (acc : RunAcc) (l : String) (ln : Nat) :
    ∃ tl, (accOf (stepLine acc l ln)).out = acc.out ++ tl := by
  cases hs : acc.machine.state <;>
    simp only [stepLine, hs, stepInit, stepStruct, stepPostRegComment, stepPostRegUnionDef,
      stepPostRegStructDef, stepPostRegStruct] <;>
    repeat' split
  all_goals
    first
    | (refine ⟨[], ?_⟩; simp [accOf, pushDiag, pushErr]; done)
    | (refine ⟨[acc.machine.struct], ?_⟩; simp [accOf, pushDiag, pushErr]; done)

theorem out_extend_run (acc : RunAcc) (ys : List String) (n : Nat) :
    ∃ tl, (accOf (runLines acc ys n)).out = acc.out ++ tl := by
  induction ys generalizing acc n with
  | nil => exact ⟨[], by simp [runLines, accOf]⟩
  | cons y ys ih =>
    unfold runLines
    obtain ⟨t1, h1⟩ := out_extend_step acc y (n + 1)
    cases h : stepLine acc y (n + 1) with
    | ok acc' =>
      rw [h] at h1
      obtain ⟨t2, h2⟩ := ih acc' (n + 1)
      refine ⟨t1 ++ t2, ?_⟩
      simp only [accOf] at h1 h2 ⊢
      rw [h2, h1, List.append_assoc]
    | exit c a =>
      rw [h] at h1
      exact ⟨t1, h1⟩
    | exc e a =>
      rw [h] at h1
      exact ⟨t1, h1⟩

theorem modifyLast_spec (st : Struct) (r : Register) (f : Register → Register)
    (h : st.registers.getLast? = some r) :
    modifyLast (some st) f = some { st with registers := st.registers.dropLast ++ [f r] } := by
  simp [modifyLast, h]

theorem dropLast_concat_get {α : Type} (l : List α) (r : α) (f : α → α)
    (h : l.getLast? = some r) (i : Nat) (x : α) (hx : l[i]? = some x) :
    ∃ y, (l.dropLast ++ [f r])[i]? = some y ∧ (y = x ∨ (y = f x ∧ x = r)) := by
  induction l generalizing i with
  | nil => simp at hx
  | cons a t ih =>
    cases t with
    | nil =>
      simp only [List.getLast?_singleton, Option.some.injEq] at h
      cases i with
      | zero =>
        simp only [List.getElem?_cons_zero, Option.some.injEq] at hx
        have hxr : x = r := hx.symm.trans h
        exact ⟨f r, by simp, Or.inr ⟨by rw [hxr], hxr⟩⟩
      | succ j => simp at hx
    | cons b t' =>
      have hlast : (b :: t').getLast? = some r := by
        rw [List.getLast?_cons_cons] at h; exact h
      cases i with
      | zero =>
        simp only [List.getElem?_cons_zero, Option.some.injEq] at hx
        exact ⟨a, by simp [List.dropLast_cons₂], Or.inl hx⟩
      | succ j =>
        obtain ⟨y, hy, hc⟩ := ih hlast j (by simpa using hx)
        exact ⟨y, by simpa [List.dropLast_cons₂] using hy, hc⟩

theorem invB_init {m : Machine} (h : invB m = true) (hs : m.state = .init) :
    m.struct = none := by
  cases ho : m.struct with
  | none => rfl
  | some st => simp [invB, hs, ho] at h

theorem invB_struct {m : Machine} (h : invB m = true) (hs : m.state = .struct) :
    ∃ st, m.struct = some st := by
  cases ho : m.struct with
  | none => simp [invB, hs, ho] at h
  | some st => exact ⟨st, rfl⟩

theorem invB_post {m : Machine} (h : invB m = true)
    (hs : m.state ≠ .init ∧ m.state ≠ .struct) :
    ∃ st r, m.struct = some st ∧ st.registers.getLast? = some r ∧ r.comment = none := by
  obtain ⟨hs1, hs2⟩ := hs
  cases hm : m.state
  case init => exact absurd hm hs1
  case struct => exact absurd hm hs2
  all_goals
    cases ho : m.struct with
    | none => simp [invB, hm, ho] at h
    | some st =>
      simp only [invB, hm, ho] at h
      cases hr : st.registers.getLast? with
      | none => rw [hr] at h; simp at h
      | some r =>
        rw [hr] at h
        simp only [Option.isNone_iff_eq_none] at h
        exact ⟨st, r, rfl, hr, h⟩

theorem GInv.mono {lines : List String} {n m : Nat} {acc : RunAcc}
    (h : GInv lines n acc) (hnm : n ≤ m) : GInv lines m acc := by
  obtain ⟨h1, h2, h3, h4, h5⟩ := h
  refine ⟨h1, fun st hst => ⟨(h2 st hst).1, le_trans (h2 st hst).2 hnm⟩,
    fun st hst => ⟨(h3 st hst).1, le_trans (h3 st hst).2.1 hnm, (h3 st hst).2.2⟩,
    fun d hd => le_trans (h4 d hd) hnm, h5⟩

theorem GInv.push {lines : List String} {n : Nat} {acc : RunAcc}
    (h : GInv lines n acc) (d : Diag)
    (hd : d.lineOf ≤ n) (hnd : d.isUnexpectedStruct = false) :
    GInv lines n (pushDiag acc d) := by
  obtain ⟨h1, h2, h3, h4, h5⟩ := h
  refine ⟨h1, h2, h3, fun d' hd' => ?_, ?_⟩
  · simp only [pushDiag, List.mem_append, List.mem_singleton] at hd'
    rcases hd' with h | h
    · exact h4 d' h
    · subst h; exact hd
  · simp [pushDiag, List.countP_append, h5, List.countP_cons, hnd]

theorem GInv.pushE {lines : List String} {n : Nat} {acc : RunAcc}
    (h : GInv lines n acc) (s : String) : GInv lines n (pushErr acc s) := h

theorem GInv.setMachine {lines : List String} {n : Nat} {acc : RunAcc}
    (h : GInv lines n acc) (m : Machine)
    (h1 : invB m = true)
    (h3 : ∀ st : Struct, m.struct = some st →
      StructProv lines st ∧ st.line ≤ n ∧ ∀ t : Struct, some t ∈ acc.out → t.line < st.line) :
    GInv lines n { acc with machine := m } :=
  ⟨h1, h.2.1, h3, h.2.2.2.1, h.2.2.2.2⟩

theorem GInv.setState {lines : List String} {n : Nat} {acc : RunAcc}
    (h : GInv lines n acc) (s : PState)
    (h1 : invB ⟨s, acc.machine.struct⟩ = true) :
    GInv lines n { acc with machine := { acc.machine with state := s } } :=
  ⟨h1, h.2.1, fun st hst => h.2.2.1 st hst, h.2.2.2.1, h.2.2.2.2⟩

theorem structProv_append {lines : List String} {st : Struct} {r : Register}
    (hst : StructProv lines st)
    (hr : RegProv lines r ∧ ∀ f ∈ r.fields, FieldProv lines f) :
    StructProv lines { st with registers := st.registers ++ [r] } := by
  intro r' hr'
  simp only [List.mem_append, List.mem_singleton] at hr'
  rcases hr' with h | h
  · exact hst r' h
  · subst h; exact hr

theorem structProv_modifyLast {lines : List String} {st : Struct} {r : Register}
    (f : Register → Register)
    (hst : StructProv lines st) (hr : st.registers.getLast? = some r)
    (hf : RegProv lines (f r) ∧ ∀ fl ∈ (f r).fields, FieldProv lines fl) :
    StructProv lines { st with registers := st.registers.dropLast ++ [f r] } := by
  intro r' hr'
  simp only [List.mem_append, List.mem_singleton] at hr'
  rcases hr' with h | h
  · exact hst r' (List.dropLast_subset _ h)
  · subst h; exact hf

theorem getLastMem {α : Type} {l : List α} {a : α} (h : l.getLast? = some a) : a ∈ l := by
  obtain ⟨hne, hx⟩ := List.mem_getLast?_eq_getLast h
  subst hx; exact List.getLast_mem hne

theorem getElemMem {α : Type} {l : List α} {a : α} {i : Nat} (h : l[i]? = some a) : a ∈ l := by
  obtain ⟨hlt, hx⟩ := List.getElem?_eq_some.mp h
  subst hx; exact List.getElem_mem hlt

theorem ginv_stepInit {lines : List String} {n : Nat} {acc : RunAcc} (l : String)
    (hs : acc.machine.state = .init) (h : GInv lines n acc) :
    GInv lines (n + 1) (accOf (stepInit acc l (n + 1))) := by
  have hmono := h.mono (Nat.le_succ n)
  have hnone : acc.machine.struct = none := invB_init h.1 hs
  unfold stepInit
  by_cases hsw : pyStartsWith l.data "struct".data = true
  · rw [if_pos hsw]
    simp only [hnone, Option.isSome_none, Bool.false_eq_true, if_false]
    cases hrn : readStructName l with
    | none => exact hmono
    | some nm =>
      obtain ⟨h1, h2, h3, h4, h5⟩ := h
      refine ⟨rfl, ?_, ?_, ?_, ?_⟩
      · intro st hst
        exact ⟨(h2 st hst).1, Nat.le_succ_of_le (h2 st hst).2⟩
      · intro st hst
        simp only [accOf, Option.some.injEq] at hst
        subst hst
        refine ⟨?_, le_refl _, ?_⟩
        · intro r hr; simp at hr
        · intro t ht; exact Nat.lt_succ_of_le (h2 t ht).2
      · intro d hd
        simp only [accOf, pushDiag, List.mem_append, List.mem_singleton] at hd
        rcases hd with hd | hd
        · exact Nat.le_succ_of_le (h4 d hd)
        · subst hd; exact le_refl _
      · show (acc.diags ++ [Diag.foundStruct nm (n + 1)]).countP
            (fun d => d.isUnexpectedStruct) = 0
        rw [List.countP_append, h5]
        simp [List.countP_cons, Diag.isUnexpectedStruct]
  · rw [if_neg hsw]
    exact hmono

theorem ginv_stepStruct {lines : List String} {n : Nat} {acc : RunAcc} {l : String}
    (hl : lines[n]? = some l)
    (hs : acc.machine.state = .struct) (h : GInv lines n acc) :
    GInv lines (n + 1) (accOf (stepStruct acc l (n + 1))) := by
  have hmono := h.mono (Nat.le_succ n)
  obtain ⟨st0, hst0⟩ := invB_struct h.1 hs
  have hprov := h.2.2.1 st0 hst0
  unfold stepStruct
  by_cases hco : commentOpen l = true
  · rw [if_pos hco]
    cases hrc : readRegComment l with
    | none => exact hmono.push (.foundComment (n + 1)) (by simp [Diag.lineOf]) rfl
    | some pr =>
      obtain ⟨off, desc⟩ := pr
      rw [hst0]
      have hacc2 : GInv lines (n + 1)
          (pushDiag (pushDiag acc (.foundComment (n + 1)))
            (.registerDebug ⟨desc, off, n + 1, none, []⟩)) :=
        (hmono.push (.foundComment (n + 1)) (by simp [Diag.lineOf]) rfl).push
          (.registerDebug ⟨desc, off, n + 1, none, []⟩) (by simp [Diag.lineOf]) rfl
      refine GInv.setMachine hacc2 _ ?_ ?_
      · simp [invB, List.getLast?_concat]
      · intro stX hst
        injection hst with hst'
        subst hst'
        refine ⟨?_, Nat.le_succ_of_le hprov.2.1, ?_⟩
        · refine structProv_append hprov.1 ⟨⟨l, desc, ?_, hrc, Or.inl ⟨rfl, rfl⟩⟩, ?_⟩
          · simpa using hl
          · intro f hf; simp at hf
        · intro t ht
          show t.line < st0.line
          exact hprov.2.2 t ht
  · rw [if_neg hco]
    by_cases hcl : pyStartsWith (pyStrip l.data) "\x7d;".data = true
    · rw [if_pos hcl]
      obtain ⟨h1, h2, h3, h4, h5⟩ := h
      refine ⟨rfl, ?_, ?_, ?_, ?_⟩
      · intro stX hst
        simp only [accOf, pushDiag, List.mem_append, List.mem_singleton] at hst
        rcases hst with hst | hst
        · exact ⟨(h2 stX hst).1, Nat.le_succ_of_le (h2 stX hst).2⟩
        · rw [hst0] at hst
          injection hst with hst'
          subst hst'
          exact ⟨hprov.1, Nat.le_succ_of_le hprov.2.1⟩
      · intro stX hst
        simp only [accOf] at hst
        cases hst
      · intro d hd
        simp only [accOf, pushDiag, List.mem_append, List.mem_singleton] at hd
        rcases hd with hd | hd
        · exact Nat.le_succ_of_le (h4 d hd)
        · subst hd; simp [Diag.lineOf]
      · show (acc.diags ++ [Diag.finishedStruct acc.machine.struct]).countP
            (fun d => d.isUnexpectedStruct) = 0
        rw [List.countP_append, h5]
        simp [List.countP_cons, Diag.isUnexpectedStruct]
    · rw [if_neg hcl]
      exact hmono

theorem ginv_stepPostRegComment {lines : List String} {n : Nat} {acc : RunAcc} {l : String}
    (hs : acc.machine.state = .post_reg_comment) (h : GInv lines n acc) :
    GInv lines (n + 1) (accOf (stepPostRegComment acc l (n + 1))) := by
  have hmono := h.mono (Nat.le_succ n)
  obtain ⟨st0, r0, hst0, hr0, hc0⟩ := invB_post h.1 ⟨by simp [hs], by simp [hs]⟩
  unfold stepPostRegComment
  by_cases hu : reTest unionRe l.data = true
  · rw [if_pos hu]
    refine GInv.setState (hmono.push .foundUnion (by simp [Diag.lineOf]) rfl) _ ?_
    show invB ⟨.post_reg_union_def, acc.machine.struct⟩ = true
    rw [hst0]
    simp [invB, hr0, hc0]
  · rw [if_neg hu]
    refine GInv.setState (hmono.push (.noUnion (n + 1)) (by simp [Diag.lineOf]) rfl) _ ?_
    show invB ⟨.struct, acc.machine.struct⟩ = true
    rw [hst0]
    simp [invB]

theorem ginv_stepPostRegUnionDef {lines : List String} {n : Nat} {acc : RunAcc} {l : String}
    (hs : acc.machine.state = .post_reg_union_def) (h : GInv lines n acc) :
    GInv lines (n + 1) (accOf (stepPostRegUnionDef acc l (n + 1))) := by
  have hmono := h.mono (Nat.le_succ n)
  obtain ⟨st0, r0, hst0, hr0, hc0⟩ := invB_post h.1 ⟨by simp [hs], by simp [hs]⟩
  unfold stepPostRegUnionDef
  by_cases hu : reTest structDefRe l.data = true
  · rw [if_pos hu]
    refine GInv.setState (hmono.push .foundStructDef (by simp [Diag.lineOf]) rfl) _ ?_
    show invB ⟨.post_reg_struct_def, acc.machine.struct⟩ = true
    rw [hst0]
    simp [invB, hr0, hc0]
  · rw [if_neg hu]
    exact hmono.push (.expectedStruct (n + 1)) (by simp [Diag.lineOf]) rfl

theorem ginv_stepPostRegStructDef {lines : List String} {n : Nat} {acc : RunAcc} {l : String}
    (hl : lines[n]? = some l)
    (hs : acc.machine.state = .post_reg_struct_def) (h : GInv lines n acc) :
    GInv lines (n + 1) (accOf (stepPostRegStructDef acc l (n + 1))) := by
  have hmono := h.mono (Nat.le_succ n)
  obtain ⟨st0, r0, hst0, hr0, hc0⟩ := invB_post h.1 ⟨by simp [hs], by simp [hs]⟩
  have hprov := h.2.2.1 st0 hst0
  unfold stepPostRegStructDef
  by_cases hui : pyStartsWith (pyStrip l.data) "uint".data = true
  · rw [if_pos hui]
    cases hpf : parseRegField l with
    | none =>
      exact (hmono.push (.badField (n + 1)) (by simp [Diag.lineOf]) rfl).pushE _
    | some f =>
      dsimp only
      rw [hst0, modifyLast_spec st0 r0 (fun r => { r with fields := r.fields ++ [f] }) hr0]
      refine GInv.setMachine hmono _ ?_ ?_
      · show invB ⟨acc.machine.state, some _⟩ = true
        rw [hs]
        simp [invB, List.getLast?_concat, hc0]
      · intro stX hst
        injection hst with hst'
        subst hst'
        refine ⟨?_, Nat.le_succ_of_le hprov.2.1, ?_⟩
        · refine structProv_modifyLast
            (fun r => { r with fields := r.fields ++ [f] }) hprov.1 hr0 ⟨?_, ?_⟩
          · exact (hprov.1 r0 (getLastMem hr0)).1
          · intro fl hfl
            simp only [List.mem_append, List.mem_singleton] at hfl
            rcases hfl with hfl | hfl
            · exact (hprov.1 r0 (getLastMem hr0)).2 fl hfl
            · subst hfl
              exact ⟨l, getElemMem hl, hpf⟩
        · intro t ht
          show t.line < st0.line
          exact hprov.2.2 t ht
  · rw [if_neg hui]
    by_cases hbr : pyStartsWith (pyStrip l.data) "\x7d".data = true
    · rw [if_pos hbr]
      refine GInv.setState hmono _ ?_
      show invB ⟨.post_reg_struct, acc.machine.struct⟩ = true
      rw [hst0]
      simp [invB, hr0, hc0]
    · rw [if_neg hbr]
      exact (hmono.pushE _).push (.unexpectedFieldLine (n + 1)) (by simp [Diag.lineOf]) rfl

theorem ginv_stepPostRegStruct {lines : List String} {n : Nat} {acc : RunAcc} {l : String}
    (hs : acc.machine.state = .post_reg_struct) (h : GInv lines n acc) :
    GInv lines (n + 1) (accOf (stepPostRegStruct acc l (n + 1))) := by
  have hmono := h.mono (Nat.le_succ n)
  obtain ⟨st0, r0, hst0, hr0, hc0⟩ := invB_post h.1 ⟨by simp [hs], by simp [hs]⟩
  have hprov := h.2.2.1 st0 hst0
  unfold stepPostRegStruct
  cases hrn : readRegName l with
  | none => exact hmono
  | some nm =>
    dsimp only
    rw [hst0, modifyLast_spec st0 r0
      (fun r => { r with comment := some r.name, name := nm }) hr0]
    refine GInv.setMachine (hmono.push (.usingRegName nm) (by simp [Diag.lineOf]) rfl) _ ?_ ?_
    · simp [invB]
    · intro stX hst
      injection hst with hst'
      subst hst'
      refine ⟨?_, Nat.le_succ_of_le hprov.2.1, ?_⟩
      · refine structProv_modifyLast
          (fun r => { r with comment := some r.name, name := nm }) hprov.1 hr0 ⟨?_, ?_⟩
        · obtain ⟨l0, desc, hg, hrc, hdisj⟩ := (hprov.1 r0 (getLastMem hr0)).1
          rcases hdisj with ⟨_, hname⟩ | hcom
          · exact ⟨l0, desc, hg, hrc, Or.inr (by simp [hname])⟩
          · rw [hc0] at hcom; cases hcom
        · intro fl hfl
          exact (hprov.1 r0 (getLastMem hr0)).2 fl hfl
      · intro t ht
        show t.line < st0.line
        exact hprov.2.2 t ht

theorem ginv_step {lines : List String} {n : Nat} {acc : RunAcc} {l : String}
    (hl : lines[n]? = some l) (h : GInv lines n acc) :
    GInv lines (n + 1) (accOf (stepLine acc l (n + 1))) := by
  cases hs : acc.machine.state <;> simp only [stepLine, hs]
  case init => exact ginv_stepInit l hs h
  case struct => exact ginv_stepStruct hl hs h
  case post_reg_comment => exact ginv_stepPostRegComment hs h
  case post_reg_union_def => exact ginv_stepPostRegUnionDef hs h
  case post_reg_struct_def => exact ginv_stepPostRegStructDef hl hs h
  case post_reg_struct => exact ginv_stepPostRegStruct hs h

theorem ginv_run {lines : List String} : ∀ (ys : List String) (n : Nat) (acc : RunAcc),
    lines.drop n = ys → GInv lines n acc →
    GInv lines (n + ys.length) (accOf (runLines acc ys n))
  | [], n, acc, _, h => by simpa [runLines, accOf] using h
  | y :: ys, n, acc, hdrop, h => by
    have hget : lines[n]? = some y := by
      have hd := List.getElem?_drop lines n 0
      rw [hdrop] at hd
      simpa using hd.symm
    have hdrop' : lines.drop (n + 1) = ys := by
      rw [← List.drop_drop 1 n lines, hdrop]
      rfl
    have hstep := ginv_step hget h
    simp only [runLines]
    cases hs : stepLine acc y (n + 1) with
    | ok acc' =>
      rw [hs] at hstep
      have hrec := ginv_run ys (n + 1) acc' hdrop' hstep
      have harith : n + 1 + ys.length = n + (y :: ys).length := by
        simp [List.length_cons]; omega
      rw [harith] at hrec
      exact hrec
    | exit c a =>
      rw [hs] at hstep
      exact hstep.mono (by simp [List.length_cons])
    | exc e a =>
      rw [hs] at hstep
      exact hstep.mono (by simp [List.length_cons])

theorem ginv_load (lines : List String) :
    GInv lines lines.length (accOf (load lines)) := by
  have h0 : GInv lines 0 initAcc := by
    refine ⟨rfl, ?_, ?_, ?_, rfl⟩
    · intro st hst; simp [initAcc] at hst
    · intro st hst; simp [initAcc, Machine.struct] at hst
    · intro d hd
      simp only [initAcc, List.mem_singleton] at hd
      subst hd
      simp [Diag.lineOf]
  have hr := ginv_run lines 0 initAcc (by simp) h0
  simpa [load] using hr

/-- Claim C1 counterexample: running the recognizer over the nine example
lines of spec §8 emits no document at all — the `} ctrl;` line is consumed
by the field-block close branch, after which `};` never matches
`"} (.+);"` and the run ends stalled in the `post_reg_struct` state with
the struct still open. -/
theorem spec_example_emits_nothing :
    outsOf (load specExample) = [] ∧
    (accOf (load specExample)).machine.state = .post_reg_struct := by decide

/-- Claim C1 (amended): with the register identifier on the union-closing
line — the inner anonymous struct closed by `};`, then `} ctrl;` — the
recognizer emits exactly one `Struct` named `foo_reg` containing exactly
one register named `ctrl` with offset `0x100`, comment `control register`,
and exactly the two fields `{enable, uint32_t, 1, "enable bit"}` and
`{mode, uint32_t, 3, "mode select"}`. -/
theorem amended_example_emitted :
    outsOf (load specExampleAmended) = [some ⟨"foo_reg", 1, [ctrlRegister]⟩] ∧
    resKind (load specExampleAmended) = .ok := by decide

/-- Claim C10: in the `init` state, any line that starts with `struct` but
does not match the full `struct <identifier> {` shape makes the name
extraction come back empty, and the `.group(1)` dereference raises an
uncaught `AttributeError` that aborts the whole run — later lines are
never processed.  The handler is not total over such lines; `struct {`
and `structX;` are two such lines. -/
theorem seeking_bad_struct_line_raises :
    (∀ (acc : RunAcc) (l : String) (ln : Nat), acc.machine.state = .init →
      pyStartsWith l.data "struct".data = true → readStructName l = none →
      resKind (stepLine acc l ln) = .exc .attributeError) ∧
    resKind (load ["struct \x7b"]) = .exc .attributeError ∧
    resKind (load ["structX;"]) = .exc .attributeError ∧
    outsOf (load ["struct \x7b", "struct ok \x7b", "\x7d;"]) = [] ∧
    readStructName "struct \x7b" = none ∧ readStructName "structX;" = none := by
  refine ⟨?_, by decide, by decide, by decide, by decide, by decide⟩
  intro acc l ln hs hsw hrn
  cases hio : acc.machine.struct.isSome <;>
    simp [stepLine, hs, stepInit, hsw, hrn, resKind, hio]

/-- Witness for claim C10: the initial machine on the line `struct {`. -/
theorem seeking_bad_struct_line_raises_witness :
    resKind (stepLine initAcc "struct \x7b" 1) = .exc .attributeError :=
  seeking_bad_struct_line_raises.1 initAcc "struct \x7b" 1 (by decide) (by decide) (by decide)

/-- Claim C2 counterexample: in the `struct` state the block-comment line
`" /* hello */"` (no `0x` offset) is not ignored: the offset extraction
returns nothing and unpacking it raises an uncaught `TypeError`, aborting
the run. -/
theorem comment_without_offset_raises :
    resKind (load plainCommentInput) = .exc .typeError ∧
    commentOpen " /* hello */" = true ∧
    readRegComment " /* hello */" = none := by decide

/-- Claim C2 (amended): in the `struct` state, a line that neither opens a
block comment (`^\s*/\*`) nor, trimmed, starts with `};` leaves the open
struct, its registers, the outputs and the diagnostics entirely unchanged
and processing continues.  The handler is however not total: a
block-comment line whose offset extraction fails raises an uncaught
`TypeError` that aborts the run. -/
theorem instruct_other_lines_ignored :
    (∀ (acc : RunAcc) (l : String) (ln : Nat), acc.machine.state = .struct →
      commentOpen l = false → pyStartsWith (pyStrip l.data) "\x7d;".data = false →
      stepLine acc l ln = .ok acc) ∧
    (∀ (acc : RunAcc) (l : String) (ln : Nat), acc.machine.state = .struct →
      commentOpen l = true → readRegComment l = none →
      stepLine acc l ln = .exc .typeError (pushDiag acc (.foundComment ln))) := by
  constructor
  · intro acc l ln hs hco hcl
    simp [stepLine, hs, stepStruct, hco, hcl]
  · intro acc l ln hs hco hrc
    simp [stepLine, hs, stepStruct, hco, hrc]

/-- Witness for the amended claim C2, at the state reached after
`struct a {` with the lines `"int x;"` and `" /* hello */"`. -/
theorem instruct_other_lines_ignored_witness :
    stepLine (accOf (load ["struct a \x7b"])) "int x;" 2 = .ok (accOf (load ["struct a \x7b"])) ∧
    stepLine (accOf (load ["struct a \x7b"])) " /* hello */" 2 =
      .exc .typeError (pushDiag (accOf (load ["struct a \x7b"])) (.foundComment 2)) :=
  ⟨instruct_other_lines_ignored.1 (accOf (load ["struct a \x7b"])) "int x;" 2
      (by decide) (by decide) (by decide),
   instruct_other_lines_ignored.2 (accOf (load ["struct a \x7b"])) " /* hello */" 2
      (by decide) (by decide) (by decide)⟩

/-- Claim C3 counterexample: on `["struct a {", "struct b {", "};"]` the
second struct-opening line produces no diagnostic of error level at all,
the first struct is not discarded, and it is the first struct — not the
second — that is emitted. -/
theorem second_struct_no_error_first_emitted :
    outsOf (load secondStructInput) = [some ⟨"a", 1, []⟩] ∧
    (diagsOf (load secondStructInput)).countP (fun d => decide (d.level = .error)) = 0 := by
  decide

/-- Claim C8 counterexample: the comment line `/* 0x1 :  x */` is matched
by the offset+comment extraction rule, yet the captured description stored
as the register's initial name is `" x"`, which carries leading
whitespace — it is not whitespace-trimmed. -/
theorem captured_desc_not_trimmed :
    readRegComment "/* 0x1 :  x */" = some ("0x1", " x") ∧
    (accOf (load extraSpaceInput)).machine.struct =
      some ⟨"a", 1, [⟨" x", "0x1", 2, none, []⟩]⟩ ∧
    pyStrip " x".data = "x".data := by decide

/-- Claim C8 (amended): the captured description is stored as the
register's initial name verbatim — exactly the text the `(.*)` group
matched, with no trimming applied — so with single spaces around the hex
literal, colon and description it has no surrounding whitespace, while
extra interior whitespace is preserved in the capture. -/
theorem captured_desc_stored_verbatim (acc : RunAcc) (l : String) (ln : Nat)
    (st : Struct) (off desc : String)
    (hs : acc.machine.state = .struct) (hopen : acc.machine.struct = some st)
    (hco : commentOpen l = true) (hrc : readRegComment l = some (off, desc)) :
    stepLine acc l ln = .ok
      { pushDiag (pushDiag acc (.foundComment ln)) (.registerDebug ⟨desc, off, ln, none, []⟩) with
        machine := ⟨.post_reg_comment,
          some { st with registers := st.registers ++ [⟨desc, off, ln, none, []⟩] }⟩ } := by
  simp [stepLine, hs, stepStruct, hco, hrc, hopen]

/-- Witness for the amended claim C8: the two-space comment line stores
description `" x"` as the new register's name, verbatim. -/
theorem captured_desc_stored_verbatim_witness :
    stepLine (accOf (load ["struct a \x7b"])) "/* 0x1 :  x */" 2 = .ok
      { pushDiag (pushDiag (accOf (load ["struct a \x7b"])) (.foundComment 2))
          (.registerDebug ⟨" x", "0x1", 2, none, []⟩) with
        machine := ⟨.post_reg_comment,
          some { (⟨"a", 1, []⟩ : Struct) with registers := [⟨" x", "0x1", 2, none, []⟩] }⟩ } :=
  captured_desc_stored_verbatim (accOf (load ["struct a \x7b"])) "/* 0x1 :  x */" 2
    ⟨"a", 1, []⟩ "0x1" " x" (by decide) (by decide) (by decide) (by decide)

theorem dropLast_concat_getElem {α : Type} (l : List α) (x : α) (i : Nat)
    (hi : i + 1 < l.length) : (l.dropLast ++ [x])[i]? = l[i]? := by
  induction l generalizing i with
  | nil => simp at hi
  | cons a t ih =>
    cases t with
    | nil => simp at hi
    | cons b t' =>
      cases i with
      | zero => simp [List.dropLast_cons₂]
      | succ j =>
        have hj : j + 1 < (b :: t').length := by simpa using hi
        simpa [List.dropLast_cons₂] using ih j hj

/-- Claim C3 (amended): a second struct-opening line encountered while a
struct is open is not treated specially: in the `struct` state it is
ignored like any other unrecognized line, no error diagnostic is ever
reported in any run (the `Entered unexpected struct` error branch is
unreachable, because in the `init` state the open struct is always
absent), the first struct's partial content is kept, and it is the first
struct that is emitted when its closing line arrives. -/
theorem second_struct_line_ignored :
    (∀ lines : List String,
      (diagsOf (load lines)).countP (fun d => d.isUnexpectedStruct) = 0) ∧
    outsOf (load secondStructInput) = [some ⟨"a", 1, []⟩] ∧
    resKind (load secondStructInput) = .ok := by
  refine ⟨?_, by decide, by decide⟩
  intro lines
  exact (ginv_load lines).2.2.2.2

/-- Claim C4 counterexample: for the indented malformed field line
`"   uint32_t bad;"` the diagnostic pair carries the whitespace-stripped
line content `"uint32_t bad;"`, not the raw line text — the raw and
reported contents differ. -/
theorem malformed_field_diag_stripped :
    resKind (load (fieldBlockPrefix ++ ["   uint32_t bad;"])) = .exit 1 ∧
    (accOf (load (fieldBlockPrefix ++ ["   uint32_t bad;"]))).err = ["uint32_t bad;"] ∧
    Diag.badField 5 ∈ diagsOf (load (fieldBlockPrefix ++ ["   uint32_t bad;"])) ∧
    ("uint32_t bad;" = "   uint32_t bad;") = False := by decide

/-- Claim C4 (amended): a line reached in the `post_reg_struct_def` state whose
trimmed form starts with `uint` but fails the full field pattern is fatal:
the run logs `Could not parse field` carrying that line's 1-based number,
prints the line's (stripped) content to stderr, and terminates immediately
with exit status 1; the documents emitted are exactly those emitted before
that line — they do not include the still-open struct containing the line —
and no later line of the input is processed. -/
theorem malformed_field_fatal (pre post : List String) (l : String) (acc : RunAcc) (s : Struct)
    (h : load pre = .ok acc)
    (hstate : acc.machine.state = .post_reg_struct_def)
    (hopen : acc.machine.struct = some s)
    (huint : pyStartsWith (pyStrip l.data) "uint".data = true)
    (hfail : parseRegField l = none) :
    load (pre ++ l :: post) =
      .exit 1 (pushErr (pushDiag acc (.badField (pre.length + 1)))
        (String.mk (pyStrip l.data))) ∧
    outsOf (load (pre ++ l :: post)) = acc.out ∧
    acc.out.countP (fun os => decide (os = some s)) = 0 := by
  have hstep : stepLine acc l (pre.length + 1) =
      .exit 1 (pushErr (pushDiag acc (.badField (pre.length + 1)))
        (String.mk (pyStrip l.data))) := by
    simp [stepLine, hstate, stepPostRegStructDef, huint, hfail]
  have hload : load (pre ++ l :: post) =
      .exit 1 (pushErr (pushDiag acc (.badField (pre.length + 1)))
        (String.mk (pyStrip l.data))) := by
    rw [load, runLines_append]
    rw [show runLines initAcc pre 0 = load pre from rfl, h]
    show runLines acc (l :: post) (0 + pre.length) = _
    rw [Nat.zero_add, runLines]
    rw [hstep]
  refine ⟨hload, ?_, ?_⟩
  · rw [outsOf, hload]
    simp [accOf, pushErr, pushDiag]
  · have hg := ginv_load pre
    rw [h] at hg
    have hlt := (hg.2.2.1 s hopen).2.2
    rw [List.countP_eq_zero]
    intro os hos hdec
    have heq : os = some s := of_decide_eq_true hdec
    subst heq
    exact absurd (hlt s hos) (lt_irrefl _)

/-- Witness for claim C4 at a concrete malformed field line. -/
theorem malformed_field_fatal_witness :
    load (fieldBlockPrefix ++ "uint32_t bad;" :: ["\x7d;"]) =
      .exit 1 (pushErr (pushDiag (accOf (load fieldBlockPrefix)) (.badField 5))
        (String.mk (pyStrip "uint32_t bad;".data))) ∧
    outsOf (load (fieldBlockPrefix ++ "uint32_t bad;" :: ["\x7d;"])) =
      (accOf (load fieldBlockPrefix)).out ∧
    (accOf (load fieldBlockPrefix)).out.countP
      (fun os => decide (os = some abandonedStruct)) = 0 :=
  malformed_field_fatal fieldBlockPrefix ["\x7d;"] "uint32_t bad;"
    (accOf (load fieldBlockPrefix)) abandonedStruct
    (by decide) (by decide) (by decide) (by decide) (by decide)

/-- Claim C5: when a register block completes — the machine is in the
`post_reg_struct` state and the line matches `} <identifier>;` — the
current (last appended) register still has `comment` absent, its `name`
still holds exactly the description captured from its introducing block
comment, and the step renames it: `comment` receives that description (the
value `name` held at construction) and `name` becomes the captured
identifier. -/
theorem register_rename_on_close (lines : List String) (acc : RunAcc) (l : String) (ln : Nat)
    (st : Struct) (r : Register) (nm : String)
    (h : load lines = .ok acc)
    (hstate : acc.machine.state = .post_reg_struct)
    (hopen : acc.machine.struct = some st)
    (hlast : st.registers.getLast? = some r)
    (hname : readRegName l = some nm) :
    r.comment = none ∧
    (∃ l0 desc, lines[r.line - 1]? = some l0 ∧
      readRegComment l0 = some (r.offset, desc) ∧ r.name = desc) ∧
    stepLine acc l ln = .ok
      { pushDiag acc (.usingRegName nm) with
        machine := ⟨.struct, some { st with registers :=
          st.registers.dropLast ++ [{ r with comment := some r.name, name := nm }] }⟩ } := by
  have hg := ginv_load lines
  rw [h] at hg
  simp only [accOf] at hg
  obtain ⟨st0, r0, hst0, hr0, hc0⟩ := invB_post hg.1 ⟨by simp [hstate], by simp [hstate]⟩
  rw [hopen] at hst0
  injection hst0 with hst0'
  subst hst0'
  rw [hlast] at hr0
  injection hr0 with hr0'
  subst hr0'
  refine ⟨hc0, ?_, ?_⟩
  · have hprov := (hg.2.2.1 st hopen).1 r (getLastMem hlast)
    obtain ⟨l0, desc, hg0, hrc0, hdisj⟩ := hprov.1
    rcases hdisj with ⟨_, hnm'⟩ | hcom
    · exact ⟨l0, desc, hg0, hrc0, hnm'⟩
    · rw [hc0] at hcom; cases hcom
  · have hml := modifyLast_spec st r
      (fun x => { x with comment := some x.name, name := nm }) hlast
    simp [stepLine, hstate, stepPostRegStruct, hname, hopen, hml, pushDiag]

/-- Witness for claim C5: the block of register `d` in `regClosePrefix`
completes on the line `} ctrl;`. -/
theorem register_rename_on_close_witness :
    (⟨"d", "0x0", 2, none, []⟩ : Register).comment = none ∧
    (∃ l0 desc, regClosePrefix[(2 : Nat) - 1]? = some l0 ∧
      readRegComment l0 = some ("0x0", desc) ∧ "d" = desc) ∧
    stepLine (accOf (load regClosePrefix)) "\x7d ctrl;" 6 = .ok
      { pushDiag (accOf (load regClosePrefix)) (.usingRegName "ctrl") with
        machine := ⟨.struct, some { abandonedStruct with registers :=
          [⟨"d", "0x0", 2, none, []⟩].dropLast ++
            [{ (⟨"d", "0x0", 2, none, []⟩ : Register) with
                comment := some "d", name := "ctrl" }]}⟩ } :=
  register_rename_on_close regClosePrefix (accOf (load regClosePrefix)) "\x7d ctrl;" 6
    abandonedStruct ⟨"d", "0x0", 2, none, []⟩ "ctrl"
    (by decide) (by decide) (by decide) (by decide) (by decide)

/-- Claim C6: when a run extension leaves a struct open at end of input,
that struct is dropped silently: the whole run completes normally with the
same accumulated state (nothing happens after the last line), no document
equal to the open struct was ever emitted, the documents emitted before the
open struct's lines are untouched (the final output extends them), and
every diagnostic of the whole run refers to a line of the input — none is
produced at end of input about the unterminated struct. -/
theorem unterminated_struct_dropped (lines1 lines2 : List String) (acc1 acc2 : RunAcc)
    (s : Struct)
    (h1 : load lines1 = .ok acc1)
    (h2 : runLines acc1 lines2 lines1.length = .ok acc2)
    (hs : acc2.machine.struct = some s) :
    load (lines1 ++ lines2) = .ok acc2 ∧
    acc2.out.countP (fun os => decide (os = some s)) = 0 ∧
    (∃ tl, acc2.out = acc1.out ++ tl) ∧
    (∀ d ∈ acc2.diags, d.lineOf ≤ (lines1 ++ lines2).length) := by
  have hload : load (lines1 ++ lines2) = .ok acc2 := by
    rw [load, runLines_append]
    rw [show runLines initAcc lines1 0 = load lines1 from rfl, h1]
    show runLines acc1 lines2 (0 + lines1.length) = _
    rw [Nat.zero_add, h2]
  have hg := ginv_load (lines1 ++ lines2)
  rw [hload] at hg
  simp only [accOf] at hg
  refine ⟨hload, ?_, ?_, hg.2.2.2.1⟩
  · rw [List.countP_eq_zero]
    intro os hos hdec
    have heq : os = some s := of_decide_eq_true hdec
    subst heq
    exact absurd ((hg.2.2.1 s hs).2.2 s hos) (lt_irrefl _)
  · obtain ⟨tl, htl⟩ := out_extend_run acc1 lines2 lines1.length
    rw [h2] at htl
    exact ⟨tl, htl⟩

/-- Witness for claim C6: `struct b` opens at line 3 and never closes. -/
theorem unterminated_struct_dropped_witness :
    load (["struct a \x7b", "\x7d;"] ++ ["struct b \x7b", "/* 0x0 : d */"]) =
      .ok (accOf (runLines (accOf (load ["struct a \x7b", "\x7d;"]))
        ["struct b \x7b", "/* 0x0 : d */"] 2)) ∧
    (accOf (runLines (accOf (load ["struct a \x7b", "\x7d;"]))
        ["struct b \x7b", "/* 0x0 : d */"] 2)).out.countP
      (fun os => decide (os = some ⟨"b", 3, [⟨"d", "0x0", 4, none, []⟩]⟩)) = 0 ∧
    (∃ tl, (accOf (runLines (accOf (load ["struct a \x7b", "\x7d;"]))
        ["struct b \x7b", "/* 0x0 : d */"] 2)).out =
      (accOf (load ["struct a \x7b", "\x7d;"])).out ++ tl) ∧
    (∀ d ∈ (accOf (runLines (accOf (load ["struct a \x7b", "\x7d;"]))
        ["struct b \x7b", "/* 0x0 : d */"] 2)).diags,
      d.lineOf ≤ (["struct a \x7b", "\x7d;"] ++ ["struct b \x7b", "/* 0x0 : d */"]).length) :=
  unterminated_struct_dropped ["struct a \x7b", "\x7d;"] ["struct b \x7b", "/* 0x0 : d */"]
    (accOf (load ["struct a \x7b", "\x7d;"]))
    (accOf (runLines (accOf (load ["struct a \x7b", "\x7d;"])) ["struct b \x7b", "/* 0x0 : d */"] 2))
    ⟨"b", 3, [⟨"d", "0x0", 4, none, []⟩]⟩
    (by decide) (by decide) (by decide)

theorem regOffsetsJson_encode (st : Struct) :
    regOffsetsJson (encodeStruct st) = st.registers.map (fun r => some (Json.str r.offset)) := by
  show (st.registers.map encodeRegister).map (fun r => getField r "offset") =
    st.registers.map (fun r => some (Json.str r.offset))
  rw [List.map_map]
  rfl

theorem fieldBitsizesJson_encode (st : Struct) :
    fieldBitsizesJson (encodeStruct st) =
      (st.registers.flatMap (fun r => r.fields)).map
        (fun f => some (encodeOptStr f.bitsize)) := by
  show ((st.registers.map encodeRegister).flatMap (fun rj =>
      match getField rj "fields" with | some (.arr fs) => fs | _ => [])).map
      (fun fj => getField fj "bitsize") =
    (st.registers.flatMap (fun r => r.fields)).map (fun f => some (encodeOptStr f.bitsize))
  induction st.registers with
  | nil => rfl
  | cons r rs ih =>
    simp only [List.map_cons, List.flatMap_cons, List.map_append]
    rw [ih]
    congr 1
    show (r.fields.map encodeField).map (fun fj => getField fj "bitsize") = _
    rw [List.map_map]
    rfl

/-- Claim C7: in every emitted struct document, each register's serialized
`offset` string is exactly the hex-literal text the extraction rule
captured from that register's recorded source line, and each field's
serialized `bitsize` is exactly the one produced by the field extraction
rule on some input line; the serializer reproduces both strings verbatim —
re-reading the document yields the stored strings unchanged, with no
numeric parsing or reformatting anywhere in between. -/
theorem offsets_bitsizes_verbatim (lines : List String) (st : Struct)
    (h : some st ∈ outsOf (load lines)) :
    (∀ r ∈ st.registers,
      (∃ l desc, lines[r.line - 1]? = some l ∧ readRegComment l = some (r.offset, desc)) ∧
      ∀ f ∈ r.fields, ∃ l, l ∈ lines ∧ parseRegField l = some f) ∧
    regOffsetsJson (encodeStruct st) = st.registers.map (fun r => some (Json.str r.offset)) ∧
    fieldBitsizesJson (encodeStruct st) =
      (st.registers.flatMap (fun r => r.fields)).map
        (fun f => some (encodeOptStr f.bitsize)) := by
  have hg := ginv_load lines
  have hst := (hg.2.1 st h).1
  refine ⟨?_, regOffsetsJson_encode st, fieldBitsizesJson_encode st⟩
  intro r hr
  obtain ⟨⟨l0, desc, hg0, hrc, _⟩, hf⟩ := hst r hr
  exact ⟨⟨l0, desc, hg0, hrc⟩, hf⟩

/-- Witness for claim C7 on the amended example's emitted struct. -/
theorem offsets_bitsizes_verbatim_witness :
    (∀ r ∈ (⟨"foo_reg", 1, [ctrlRegister]⟩ : Struct).registers,
      (∃ l desc, specExampleAmended[r.line - 1]? = some l ∧
        readRegComment l = some (r.offset, desc)) ∧
      ∀ f ∈ r.fields, ∃ l, l ∈ specExampleAmended ∧ parseRegField l = some f) ∧
    regOffsetsJson (encodeStruct ⟨"foo_reg", 1, [ctrlRegister]⟩) =
      [ctrlRegister].map (fun r => some (Json.str r.offset)) ∧
    fieldBitsizesJson (encodeStruct ⟨"foo_reg", 1, [ctrlRegister]⟩) =
      ([ctrlRegister].flatMap (fun r => r.fields)).map
        (fun f => some (encodeOptStr f.bitsize)) :=
  offsets_bitsizes_verbatim specExampleAmended ⟨"foo_reg", 1, [ctrlRegister]⟩ (by decide)

/-- Claim C9: registers and fields are append-only — one accepted step of a
reachable machine never removes or reorders them: either the open struct
evolves so that every register keeps its index, offset, source line, and a
superset (by appending) of its fields, with all but the last register fully
unchanged, or the struct is emitted whole.  In particular a register whose
expected union opener is missing (the warning-resynchronize case) stays in
the sequence and is emitted with its placeholder name, absent comment, and
empty fields. -/
theorem registers_fields_append_only :
    (∀ (lines : List String) (acc : RunAcc) (l : String) (ln : Nat) (acc' : RunAcc)
      (st : Struct),
      load lines = .ok acc → stepLine acc l ln = .ok acc' →
      acc.machine.struct = some st →
      ((∃ st' : Struct, acc'.machine.struct = some st' ∧
          st.registers.length ≤ st'.registers.length ∧
          (∀ i : Nat, i + 1 < st.registers.length → st'.registers[i]? = st.registers[i]?) ∧
          (∀ (i : Nat) (r : Register), st.registers[i]? = some r → ∃ r' : Register, st'.registers[i]? = some r' ∧
            r'.offset = r.offset ∧ r'.line = r.line ∧
            ∃ tl, r'.fields = r.fields ++ tl)) ∨
        acc'.out = acc.out ++ [some st])) ∧
    outsOf (load abandonedRegInput) = [some abandonedStruct] ∧
    Diag.noUnion 3 ∈ diagsOf (load abandonedRegInput) := by
  refine ⟨?_, by decide, by decide⟩
  intro lines acc l ln acc' st hload hstep hopen
  have hg := ginv_load lines
  rw [hload] at hg
  simp only [accOf] at hg
  have htriv : ∀ b : RunAcc, b.machine.struct = some st →
      (∃ st' : Struct, b.machine.struct = some st' ∧
        st.registers.length ≤ st'.registers.length ∧
        (∀ i : Nat, i + 1 < st.registers.length → st'.registers[i]? = st.registers[i]?) ∧
        (∀ (i : Nat) (r : Register), st.registers[i]? = some r →
          ∃ r' : Register, st'.registers[i]? = some r' ∧
          r'.offset = r.offset ∧ r'.line = r.line ∧
          ∃ tl, r'.fields = r.fields ++ tl)) := by
    intro b hb
    exact ⟨st, hb, le_refl _, fun i _ => rfl,
      fun i r hr => ⟨r, hr, rfl, rfl, [], by simp⟩⟩
  cases hs : acc.machine.state
  case init =>
    rw [invB_init hg.1 hs] at hopen
    cases hopen
  case struct =>
    simp only [stepLine, hs] at hstep
    unfold stepStruct at hstep
    by_cases hco : commentOpen l = true
    · rw [if_pos hco] at hstep
      cases hrc : readRegComment l with
      | none => simp [hrc] at hstep
      | some pr =>
        obtain ⟨off, desc⟩ := pr
        simp only [hrc, hopen, StepRes.ok.injEq] at hstep
        subst hstep
        left
        refine ⟨{ st with registers := st.registers ++ [⟨desc, off, ln, none, []⟩] },
          rfl, by simp, ?_, ?_⟩
        · intro i hi
          rw [List.getElem?_append]
          rw [if_pos (by omega)]
        · intro i r hr
          have hi : i < st.registers.length := by
            by_contra hni
            rw [List.getElem?_eq_none (by omega)] at hr
            cases hr
          refine ⟨r, ?_, rfl, rfl, [], by simp⟩
          rw [List.getElem?_append, if_pos hi]
          exact hr
    · rw [if_neg hco] at hstep
      by_cases hcl : pyStartsWith (pyStrip l.data) "\x7d;".data = true
      · rw [if_pos hcl] at hstep
        simp only [StepRes.ok.injEq] at hstep
        subst hstep
        right
        show (pushDiag acc _).out ++ [acc.machine.struct] = acc.out ++ [some st]
        rw [hopen]
        rfl
      · rw [if_neg hcl] at hstep
        simp only [StepRes.ok.injEq] at hstep
        subst hstep
        exact Or.inl (htriv _ hopen)
  case post_reg_comment =>
    simp only [stepLine, hs] at hstep
    unfold stepPostRegComment at hstep
    by_cases hu : reTest unionRe l.data = true
    · rw [if_pos hu] at hstep
      simp only [StepRes.ok.injEq] at hstep
      subst hstep
      exact Or.inl (htriv _ hopen)
    · rw [if_neg hu] at hstep
      simp only [StepRes.ok.injEq] at hstep
      subst hstep
      exact Or.inl (htriv _ hopen)
  case post_reg_union_def =>
    simp only [stepLine, hs] at hstep
    unfold stepPostRegUnionDef at hstep
    by_cases hu : reTest structDefRe l.data = true
    · rw [if_pos hu] at hstep
      simp only [StepRes.ok.injEq] at hstep
      subst hstep
      exact Or.inl (htriv _ hopen)
    · rw [if_neg hu] at hstep
      simp only [StepRes.ok.injEq] at hstep
      subst hstep
      exact Or.inl (htriv _ hopen)
  case post_reg_struct_def =>
    obtain ⟨st0, r0, hst0, hr0, hc0⟩ := invB_post hg.1 ⟨by simp [hs], by simp [hs]⟩
    rw [hopen] at hst0
    injection hst0 with he
    subst he
    have hne : st.registers ≠ [] := by
      intro hnil
      rw [hnil] at hr0
      cases hr0
    have hlen1 : 1 ≤ st.registers.length := List.length_pos.mpr hne
    simp only [stepLine, hs] at hstep
    unfold stepPostRegStructDef at hstep
    by_cases hui : pyStartsWith (pyStrip l.data) "uint".data = true
    · rw [if_pos hui] at hstep
      cases hpf : parseRegField l with
      | none => simp [hpf] at hstep
      | some f =>
        rw [hpf] at hstep
        dsimp only at hstep
        rw [hopen, modifyLast_spec st r0 (fun r => { r with fields := r.fields ++ [f] }) hr0]
          at hstep
        dsimp only at hstep
        simp only [StepRes.ok.injEq] at hstep
        subst hstep
        left
        refine ⟨_, rfl, ?_, ?_, ?_⟩
        · simp [List.length_append, List.length_dropLast]
          omega
        · intro i hi
          exact dropLast_concat_getElem st.registers _ i hi
        · intro i r hr
          obtain ⟨y, hy, hc⟩ := dropLast_concat_get st.registers r0
            (fun r => { r with fields := r.fields ++ [f] }) hr0 i r hr
          rcases hc with hc | ⟨hc, _⟩
          · exact ⟨y, hy, by rw [hc], by rw [hc], [], by rw [hc]; simp⟩
          · exact ⟨y, hy, by rw [hc], by rw [hc], [f], by rw [hc]⟩
    · rw [if_neg hui] at hstep
      by_cases hbr : pyStartsWith (pyStrip l.data) "\x7d".data = true
      · rw [if_pos hbr] at hstep
        simp only [StepRes.ok.injEq] at hstep
        subst hstep
        exact Or.inl (htriv _ hopen)
      · rw [if_neg hbr] at hstep
        simp only [StepRes.ok.injEq] at hstep
        subst hstep
        exact Or.inl (htriv _ hopen)
  case post_reg_struct =>
    obtain ⟨st0, r0, hst0, hr0, hc0⟩ := invB_post hg.1 ⟨by simp [hs], by simp [hs]⟩
    rw [hopen] at hst0
    injection hst0 with he
    subst he
    have hne : st.registers ≠ [] := by
      intro hnil
      rw [hnil] at hr0
      cases hr0
    have hlen1 : 1 ≤ st.registers.length := List.length_pos.mpr hne
    simp only [stepLine, hs] at hstep
    unfold stepPostRegStruct at hstep
    cases hrn : readRegName l with
    | none =>
      simp only [hrn, StepRes.ok.injEq] at hstep
      subst hstep
      exact Or.inl (htriv _ hopen)
    | some nm =>
      rw [hrn] at hstep
      dsimp only at hstep
      rw [hopen, modifyLast_spec st r0
        (fun r => { r with comment := some r.name, name := nm }) hr0] at hstep
      dsimp only at hstep
      simp only [StepRes.ok.injEq] at hstep
      subst hstep
      left
      refine ⟨_, rfl, ?_, ?_, ?_⟩
      · simp [List.length_append, List.length_dropLast]
        omega
      · intro i hi
        exact dropLast_concat_getElem st.registers _ i hi
      · intro i r hr
        obtain ⟨y, hy, hc⟩ := dropLast_concat_get st.registers r0
          (fun r => { r with comment := some r.name, name := nm }) hr0 i r hr
        rcases hc with hc | ⟨hc, _⟩
        · exact ⟨y, hy, by rw [hc], by rw [hc], [], by rw [hc]; simp⟩
        · exact ⟨y, hy, by rw [hc], by rw [hc], [], by rw [hc]; simp⟩

/-- Witness for the universal part of claim C9: a field-append step on a
reachable machine keeps the existing register at index 0. -/
theorem registers_fields_append_only_witness :
    (∃ st' : Struct, (accOf (stepLine (accOf (load fieldBlockPrefix))
        "uint32_t enable : 1; /*enable bit*/" 5)).machine.struct = some st' ∧
      abandonedStruct.registers.length ≤ st'.registers.length ∧
      (∀ i : Nat, i + 1 < abandonedStruct.registers.length →
        st'.registers[i]? = abandonedStruct.registers[i]?) ∧
      (∀ (i : Nat) (r : Register), abandonedStruct.registers[i]? = some r →
        ∃ r' : Register, st'.registers[i]? = some r' ∧
          r'.offset = r.offset ∧ r'.line = r.line ∧
          ∃ tl, r'.fields = r.fields ++ tl)) ∨
    (accOf (stepLine (accOf (load fieldBlockPrefix))
        "uint32_t enable : 1; /*enable bit*/" 5)).out =
      (accOf (load fieldBlockPrefix)).out ++ [some abandonedStruct] := by
  have happ := registers_fields_append_only.1 fieldBlockPrefix
    (accOf (load fieldBlockPrefix)) "uint32_t enable : 1; /*enable bit*/" 5
    (accOf (stepLine (accOf (load fieldBlockPrefix))
      "uint32_t enable : 1; /*enable bit*/" 5))
    abandonedStruct (by decide) (by decide) (by decide)
  exact happ

end Creg2Json
